import Mathlib

/-!
# Verification of the chainlens asset-aggregation backend

Shallow embedding of `src/backend-server.js` (multi-chain wallet asset
aggregator).  JavaScript numbers are modelled over `ℚ`, with an explicit
`JNum.nan` constructor for IEEE NaN (which matters: `parseFloat` of a
missing or non-numeric field yields NaN, and every JS comparison with NaN
is false).  Network calls appear as explicit oracle parameters: each
oracle argument stands for the (already awaited) response of the one
upstream call the source makes at that point.  Strings that the code
slices byte-wise (hex return data) are modelled as `List Char`; plain
identifier strings as `String`.
-/

/-- A JavaScript number: either NaN or a rational value.
(Infinities never arise on the modelled paths: every division in the
source is guarded by a positivity test on the divisor.) -/
inductive JNum where
  | nan : JNum
  | num (q : ℚ) : JNum
deriving DecidableEq, Repr

namespace JNum

/-- JS `<` comparison: any comparison with NaN is false. -/
def lt : JNum → JNum → Bool
  | num a, num b => a < b
  | _, _ => false

/-- JS falsiness of a number: `NaN` and `0` are falsy. -/
def falsy : JNum → Bool
  | nan => true
  | num q => q == 0

/-- JS multiplication; NaN propagates. -/
def mul : JNum → JNum → JNum
  | num a, num b => num (a * b)
  | _, _ => nan

/-- Division by a rational; all call sites in the source guard `0 < r`. -/
def divPos : JNum → ℚ → JNum
  | nan, _ => nan
  | num a, r => num (a / r)

/-- `x` is a genuine number that is ≥ 0 (what the spec asserts of `usdPrice`). -/
def isNonneg : JNum → Bool
  | nan => false
  | num q => 0 ≤ q

end JNum

/-- JS `Number.prototype.toFixed d`, modelled by the rounded rational value
of the produced decimal string ("NaN" is modelled by `nan`).  ECMA: pick the
integer n with n/10^d closest to x, ties toward the larger n, i.e. ⌊x·10^d + 1/2⌋. -/
def jsToFixed (d : Nat) : JNum → JNum
  | .nan => .nan
  | .num q => .num ((⌊q * 10 ^ d + 1 / 2⌋ : ℤ) / (10 ^ d : ℚ))

/-- `x || 0` on an optional JSON number (`d[cgId]?.usd || 0`). -/
def jsOrZero : Option ℚ → ℚ
  | none => 0
  | some q => q

/-- `a || b` on optional values where `none` models a falsy miss. -/
def jsOrOpt {α : Type} : Option α → Option α → Option α
  | some x, _ => some x
  | none, b => b

/-- `a || b` on JS strings: the empty string is falsy. -/
def jsOrStr (a b : String) : String :=
  if a = "" then b else a

/-- JS `String.prototype.startsWith`, at the character-list level. -/
def jsStartsWith (s pre : String) : Bool :=
  pre.data.isPrefixOf s.data

/-- JS `toLowerCase()` (character-wise). -/
def jsToLower (s : String) : String := String.mk (s.data.map Char.toLower)

/-- JS `toUpperCase()` (character-wise). -/
def jsToUpper (s : String) : String := String.mk (s.data.map Char.toUpper)

-- ### Price Cache (`_priceCache`, `_cGet`, `_cSet`; backend-server.js lines 38-41)

/-- One `_priceCache` entry: `{ v, ts }`. -/
structure CEntry where
  v : JNum
  ts : ℤ
deriving DecidableEq, Repr

/-- The process-wide price cache, an object keyed by string.  Assignment is
modelled by consing (newest binding shadows older ones). -/
def Cache := List (String × CEntry)

instance : DecidableEq Cache := inferInstanceAs (DecidableEq (List (String × CEntry)))

instance : Repr Cache := inferInstanceAs (Repr (List (String × CEntry)))

/-- `_cGet(k)`: the cached value when the entry exists and is fresher than the
90 000 ms TTL, else JS `null` (`none`). -/
def cGet (c : Cache) (now : ℤ) (k : String) : Option JNum :=
  match List.lookup k c with
  | some e => if now - e.ts < 90000 then some e.v else none
  | none => none

/-- `_cSet(k, v)`: store `{ v, ts: Date.now() }`. -/
def cSet (c : Cache) (k : String) (v : JNum) (now : ℤ) : Cache :=
  (k, ⟨v, now⟩) :: c

/-- Result of one resolver invocation: the value returned, the cache
afterwards, and whether an upstream fetch was issued. -/
structure FetchOut where
  v : JNum
  cache : Cache
  fetched : Bool
deriving DecidableEq, Repr

/-- The value `fetchCoinGeckoPrice` stores on a miss: `d[cgId]?.usd || 0`
on success, `0` on a caught exception. -/
def cgValue : Except Unit (Option ℚ) → JNum
  | .error _ => .num 0
  | .ok usd => .num (jsOrZero usd)

/-- `fetchCoinGeckoPrice(cgId)` (lines 44-52).  `upstream` is the awaited
CoinGecko response: `.error` models a network/parse exception (the `catch`),
`.ok usd` a parsed body whose `d[cgId]?.usd` field is `usd`. -/
def fetchCoinGeckoPrice (upstream : Except Unit (Option ℚ)) (now : ℤ)
    (cgId : String) (c : Cache) : FetchOut :=
  match cGet c now cgId with
  | some hit => ⟨hit, c, false⟩
  | none => ⟨cgValue upstream, cSet c cgId (cgValue upstream) now, true⟩

/-- `NATIVE_CG_IDS` (lines 31-36). -/
def NATIVE_CG_IDS : List (String × String) :=
  [("ETH", "ethereum"), ("MATIC", "matic-network"), ("POL", "matic-network"),
   ("AVAX", "avalanche-2"), ("RON", "ronin"), ("APE", "apecoin"),
   ("MON", "monad"), ("SOL", "solana"), ("ADA", "cardano"), ("BNB", "binancecoin"),
   ("xDAI", "xdai"), ("HYPE", "hyperliquid")]

/-- `DS_CHAIN` (lines 61-66). -/
def DS_CHAIN : List (String × String) :=
  [("ethereum", "ethereum"), ("base", "base"), ("polygon", "polygon"),
   ("abstract", "abstract"), ("monad", "monad"), ("avalanche", "avalanche"),
   ("optimism", "optimism"), ("arbitrum", "arbitrum"), ("blast", "blast"),
   ("zora", "zora"), ("apechain", "ape"), ("soneium", "soneium"),
   ("ronin", "ronin"), ("worldchain", "worldchain")]

/-- One trading pair of a DexScreener response: `chainId` and the `priceUsd`
field, where `some q` models a numeric string of value `q` and `none` an
absent or non-numeric field (so that `parseFloat` of it is NaN). -/
structure DsPair where
  chainId : String
  priceUsd : Option ℚ
deriving DecidableEq, Repr

/-- A parsed DexScreener body: the optional `pairs` array. -/
structure DsResp where
  pairs : Option (List DsPair)
deriving DecidableEq, Repr

/-- `parseFloat` applied to an optional numeric string. -/
def parseFloatOpt : Option ℚ → JNum
  | none => .nan
  | some q => .num q

/-- `DS_CHAIN[chainId] || chainId` (line 75). -/
def dsChainOf (chainId : String) : String :=
  match List.lookup chainId DS_CHAIN with
  | some x => x
  | none => chainId

/-- DexScreener pair selection (line 78):
`data.pairs?.find(p => p.chainId === dsChain) || data.pairs?.[0]`. -/
def dsSelectedPair (chainId : String) (data : DsResp) : Option DsPair :=
  jsOrOpt (data.pairs.bind (·.find? (fun p => p.chainId == dsChainOf chainId)))
          (data.pairs.bind List.head?)

/-- The value `fetchUSDPrice` stores on a miss:
`pair ? parseFloat(pair.priceUsd) : 0`; a caught exception stores `0`. -/
def dsValue (chainId : String) : Except Unit DsResp → JNum
  | .error _ => .num 0
  | .ok data =>
    match dsSelectedPair chainId data with
    | some p => parseFloatOpt p.priceUsd
    | none => .num 0

/-- `fetchUSDPrice(chainId, address)` (lines 69-81): zero-address
short-circuit, cache lookup keyed by `ds-<chainId>-<address>`, then the
DexScreener lookup (`dsValue`). -/
def fetchUSDPrice (upstream : Except Unit DsResp) (now : ℤ)
    (chainId address : String) (c : Cache) : FetchOut :=
  if address = "" ∨ address = "0x0000000000000000000000000000000000000000" then
    ⟨.num 0, c, false⟩
  else
    match cGet c now ("ds-" ++ chainId ++ "-" ++ address) with
    | some hit => ⟨hit, c, false⟩
    | none => ⟨dsValue chainId upstream,
               cSet c ("ds-" ++ chainId ++ "-" ++ address) (dsValue chainId upstream) now,
               true⟩

/-- `fetchNativePrice(symbol)` (lines 55-58): look the upper-cased symbol up
in `NATIVE_CG_IDS`; unknown symbols resolve to 0 with no fetch. -/
def fetchNativePrice (upstream : Except Unit (Option ℚ)) (now : ℤ)
    (symbol : String) (c : Cache) : FetchOut :=
  match List.lookup (jsToUpper symbol) NATIVE_CG_IDS with
  | some cgId => fetchCoinGeckoPrice upstream now cgId c
  | none => ⟨.num 0, c, false⟩

-- ### Hex / numeral parsing helpers (JS `parseInt`, `BigInt`, `Buffer.from(.., 'hex')`)

/-- The value of a hex digit, if `c` is one. -/
def hexVal? (c : Char) : Option Nat :=
  if '0' ≤ c ∧ c ≤ '9' then some (c.toNat - 48)
  else if 'a' ≤ c ∧ c ≤ 'f' then some (c.toNat - 87)
  else if 'A' ≤ c ∧ c ≤ 'F' then some (c.toNat - 55)
  else none

/-- Value of a list of hex digits, most significant first. -/
def hexDigitsToNat (l : List Char) : Nat :=
  l.foldl (fun acc c => 16 * acc + (hexVal? c).getD 0) 0

/-- Value of a list of decimal digits, most significant first. -/
def decDigitsToNat (l : List Char) : Nat :=
  l.foldl (fun acc c => 10 * acc + (c.toNat - 48)) 0

/-- JS `parseInt(s, 16)`: strip an optional `0x`/`0X` prefix, read the longest
leading run of hex digits; an empty run gives NaN (`none`). -/
def parseHex16N (s : List Char) : Option Nat :=
  let s' := match s with
    | '0' :: 'x' :: r => r
    | '0' :: 'X' :: r => r
    | r => r
  let ds := s'.takeWhile (fun c => (hexVal? c).isSome)
  if ds = [] then none else some (hexDigitsToNat ds)

/-- JS `parseInt(s, 16)` as a JS number. -/
def parseHex16 (s : List Char) : JNum :=
  match parseHex16N s with
  | none => .nan
  | some n => .num n

/-- JS `parseInt(s, 10)` for the plain decimal numerals the providers return:
longest leading digit run; empty run gives NaN. -/
def parseInt10 (s : String) : JNum :=
  let ds := s.data.takeWhile Char.isDigit
  if ds = [] then .nan else .num (decDigitsToNat ds)

/-- JS `BigInt(s)`: the whole numeral (after an optional `0x` prefix) must be
valid, otherwise the constructor throws (modelled as `none`). -/
def bigIntHex? (s : List Char) : Option Nat :=
  match s with
  | '0' :: 'x' :: r =>
    if r ≠ [] ∧ r.all (fun c => (hexVal? c).isSome) then some (hexDigitsToNat r) else none
  | r => if r ≠ [] ∧ r.all Char.isDigit then some (decDigitsToNat r) else none

/-- Whitespace removed by JS `String.prototype.trim` (restricted to the
single-byte characters that can occur here). -/
def isJsSpace (c : Char) : Bool :=
  c = ' ' ∨ c = '\t' ∨ c = '\n' ∨ c = '\x0b' ∨ c = '\x0c' ∨ c = '\r'

/-- JS `trim()` on a char list. -/
def jsTrim (l : List Char) : List Char :=
  ((l.dropWhile isJsSpace).reverse.dropWhile isJsSpace).reverse

/-- JS `trim()` on a string. -/
def jsTrimStr (s : String) : String := String.mk (jsTrim s.data)

/-- `Buffer.from(str, 'hex')`: consume hex-digit pairs, stopping at the first
invalid or incomplete pair. -/
def hexBytes : List Char → List Nat
  | a :: b :: rest =>
    (match hexVal? a, hexVal? b with
     | some x, some y => (16 * x + y) :: hexBytes rest
     | _, _ => [])
  | _ => []

/-- `.toString('utf8')` followed by `.replace(/ /g, '').trim()`, modelled at
byte level: bytes become chars one-for-one, all spaces (0x20) are removed,
then the ends are trimmed. -/
def bytesToCleanString (bs : List Nat) : List Char :=
  jsTrim ((bs.map Char.ofNat).filter (fun c => c ≠ ' '))

/-- JS `padStart(n, '0')`. -/
def padStartZero (n : Nat) (l : List Char) : List Char :=
  List.replicate (n - l.length) '0' ++ l

-- ### Monad adapter: `decodeString` and the RPC fallback (lines 456-655)

/-- `decodeString(hex)` (lines 513-529): `''` for null / `''` / `'0x'`;
dynamic ABI string decoding (skip the 32-byte offset word, read the 32-byte
length word, take that many payload bytes) when the data has ≥ 128 hex chars
and the decoded length lies strictly between 0 and 100; otherwise the legacy
bytes32 path: `clean.replace(/^0+/, '').padStart(64, '0').slice(0, 64)`
decoded as hex.  The result is space-stripped and trimmed. -/
def decodeStringB32 (clean : List Char) : List Char :=
  bytesToCleanString
    (hexBytes ((padStartZero 64 (clean.dropWhile (fun c => c = '0'))).take 64))

def decodeString (hex : Option (List Char)) : List Char :=
  match hex with
  | none => []
  | some h =>
    if h = [] ∨ h = ['0', 'x'] then []
    else
      if 128 ≤ (h.drop 2).length then
        match parseHex16N (((h.drop 2).drop 64).take 64) with
        | some len =>
          if 0 < len ∧ len < 100 then
            bytesToCleanString (hexBytes (((h.drop 2).drop 128).take (2 * len)))
          else decodeStringB32 (h.drop 2)
        | none => decodeStringB32 (h.drop 2)
      else decodeStringB32 (h.drop 2)

/-- `decodeString(symResult) || 'UNKNOWN'` (line 566). -/
def rpcSymbol (symResult : Option (List Char)) : List Char :=
  let s := decodeString symResult
  if s = [] then "UNKNOWN".data else s

/-- `decodeString(nameResult) || symbol` (line 567). -/
def rpcName (nameResult : Option (List Char)) (symbol : List Char) : List Char :=
  let n := decodeString nameResult
  if n = [] then symbol else n

/-- Upper-case hex digit. -/
def toHexDigit (n : Nat) : Char :=
  if n < 10 then Char.ofNat (48 + n) else Char.ofNat (55 + n)

/-- `%XX` percent-encoding of one byte. -/
def pctByte (b : Nat) : List Char := ['%', toHexDigit (b / 16), toHexDigit (b % 16)]

/-- UTF-8 bytes of one character. -/
def utf8BytesOfChar (c : Char) : List Nat :=
  let n := c.toNat
  if n < 128 then [n]
  else if n < 2048 then [192 + n / 64, 128 + n % 64]
  else if n < 65536 then [224 + n / 4096, 128 + (n / 64) % 64, 128 + n % 64]
  else [240 + n / 262144, 128 + (n / 4096) % 64, 128 + (n / 64) % 64, 128 + n % 64]

/-- JS `encodeURIComponent`: unreserved characters pass through, everything
else is percent-encoded as UTF-8. -/
def encodeURIComponent (s : String) : String :=
  String.mk (s.data.flatMap (fun c =>
    if c.isAlphanum ∨ c ∈ ['-', '_', '.', '!', '~', '*', '(', ')'] ∨ c = Char.ofNat 39
    then [c] else (utf8BytesOfChar c).flatMap pctByte))

-- ### EVM adapter: `fetchAlchemyTokens` (lines 250-347)

/-- One `alchemy_getTokenBalances` entry. -/
structure TokenBalance where
  contractAddress : String
  tokenBalance : List Char
deriving DecidableEq, Repr

/-- The `result` of `alchemy_getTokenBalances` (`result?.tokenBalances || []`). -/
structure Erc20TB where
  tokenBalances : Option (List TokenBalance)
deriving DecidableEq, Repr

/-- The `result` of `alchemy_getTokenMetadata`. -/
structure AlchMeta where
  decimals : Option Nat
  name : Option String
  symbol : Option String
  logo : Option String
deriving DecidableEq, Repr

/-- A token entry produced by `fetchAlchemyTokens`.  The numeric display
fields hold the value of the `toFixed` string the source builds. -/
structure AlchToken where
  id : String
  name : String
  symbol : String
  balance : JNum
  usdPrice : JNum
  nativePrice : JNum
  totalValue : JNum
  image : String
  chain : String
  isToken : Bool
deriving DecidableEq, Repr

/-- One `_nc` entry (native symbol/name/logo, lines 271-278). -/
structure NativeCfg where
  symbol : String
  name : String
  logo : String
deriving DecidableEq, Repr

/-- The `_nc` table. -/
def _nc : List (String × NativeCfg) :=
  [("polygon", ⟨"POL", "Polygon", "https://cryptologos.cc/logos/polygon-matic-logo.png"⟩),
   ("avalanche", ⟨"AVAX", "Avalanche", "https://cryptologos.cc/logos/avalanche-avax-logo.png"⟩),
   ("ronin", ⟨"RON", "Ronin", "https://cryptologos.cc/logos/ronin-ron-logo.png"⟩),
   ("apechain", ⟨"APE", "ApeCoin", "https://cryptologos.cc/logos/apecoin-ape-ape-logo.png"⟩),
   ("gnosis", ⟨"xDAI", "Gnosis", "https://cryptologos.cc/logos/gnosis-gno-logo.png"⟩),
   ("hyperevm", ⟨"HYPE", "HyperEVM", "https://via.placeholder.com/100/6366f1/ffffff?text=HYPE"⟩)]

/-- `_nc[chainId] || { symbol:'ETH', name:'Ether', ... }` (lines 279-280). -/
def alchNativeCfg (chainId : String) : NativeCfg :=
  (List.lookup chainId _nc).getD
    ⟨"ETH", "Ether", "https://cryptologos.cc/logos/ethereum-eth-logo.png"⟩

/-- The native-balance entry of `fetchAlchemyTokens` (lines 285-301): pushed
when `eth_getBalance` returned a truthy `result` whose value
`parseInt(result, 16) / 1e18` is > 0.  Note `nativePrice` is set to
`balance.toFixed(4)` — the same string as `balance`. -/
def alchNativeEntry (chainId : String) (nativeResult : Option (List Char))
    (nativeUsdPrice : ℚ) : List AlchToken :=
  match nativeResult with
  | none => []
  | some hex =>
    if hex = [] then []
    else
      let balance := (parseHex16 hex).divPos 1000000000000000000
      if JNum.lt (.num 0) balance then
        [{ id := "native", name := (alchNativeCfg chainId).name,
           symbol := (alchNativeCfg chainId).symbol,
           balance := jsToFixed 4 balance,
           usdPrice := .num nativeUsdPrice,
           nativePrice := jsToFixed 4 balance,
           totalValue := jsToFixed 2 (balance.mul (.num nativeUsdPrice)),
           image := (alchNativeCfg chainId).logo, chain := chainId, isToken := true }]
      else []

/-- The nonzero balances, capped at 15
(`balances.filter(t => parseInt(t.tokenBalance, 16) > 0).slice(0, 15)`). -/
def alchNonZero (erc20Result : Option Erc20TB) : List TokenBalance :=
  let balances := match erc20Result with
    | some r => r.tokenBalances.getD []
    | none => []
  (balances.filter (fun t => JNum.lt (.num 0) (parseHex16 t.tokenBalance))).take 15

/-- One ERC20 entry of `fetchAlchemyTokens` (lines 306-338).  `metaOf` is the
awaited `alchemy_getTokenMetadata` response: `.error` models a rejected
request, `.ok none` a response with no `result` (reading `.decimals` of
`undefined` throws); both are swallowed by the per-token catch, dropping the
token.  `usdOf` is the awaited `fetchUSDPrice` value for the contract. -/
def alchErc20Entry (chainId : String) (nativeUsdPrice : ℚ)
    (metaOf : String → Except Unit (Option AlchMeta)) (usdOf : String → JNum)
    (t : TokenBalance) : Option AlchToken :=
  match metaOf t.contractAddress with
  | .error _ => none
  | .ok none => none
  | .ok (some md) =>
    let dec := match md.decimals with
      | some d => if d = 0 then 18 else d
      | none => 18
    let balance := (parseHex16 t.tokenBalance).divPos ((10 : ℚ) ^ dec)
    if JNum.lt balance (.num (1 / 1000000)) then none
    else
      let usdPrice := usdOf t.contractAddress
      let nativePrice := if 0 < nativeUsdPrice then usdPrice.divPos nativeUsdPrice else .num 0
      some { id := t.contractAddress,
             name := jsOrStr (md.name.getD "") "Unknown",
             symbol := jsOrStr (md.symbol.getD "") "???",
             balance := jsToFixed 4 balance,
             usdPrice := usdPrice,
             nativePrice := jsToFixed 4 nativePrice,
             totalValue := jsToFixed 2 (balance.mul usdPrice),
             image := jsOrStr (md.logo.getD "")
               ("https://raw.githubusercontent.com/trustwallet/assets/master/blockchains/ethereum/assets/"
                ++ t.contractAddress ++ "/logo.png"),
             chain := chainId, isToken := true }

/-- `fetchAlchemyTokens(network, address, chainId)` (lines 250-347), given the
two awaited JSON-RPC results.  `netOk = false` models either main fetch
rejecting, which the outer catch turns into `[]`.  `nativeUsdPrice` is the
awaited `fetchNativePrice(nativeSymbol)` value. -/
def fetchAlchemyTokens (chainId : String) (netOk : Bool)
    (nativeResult : Option (List Char)) (erc20Result : Option Erc20TB)
    (nativeUsdPrice : ℚ)
    (metaOf : String → Except Unit (Option AlchMeta)) (usdOf : String → JNum) :
    List AlchToken :=
  if !netOk then []
  else
    alchNativeEntry chainId nativeResult nativeUsdPrice
      ++ (alchNonZero erc20Result).filterMap (alchErc20Entry chainId nativeUsdPrice metaOf usdOf)

/-- `toNativePrice(usdValue, nativeUsdPrice)` (lines 84-85). -/
def toNativePrice (usdValue nativeUsdPrice : ℚ) : JNum :=
  if 0 < nativeUsdPrice ∧ 0 < usdValue
  then jsToFixed 4 (.num (usdValue / nativeUsdPrice))
  else .num 0

-- ### Monad adapter (lines 390-711)

/-- One entry of the Moralis `/erc20` result.  `decimals` is the value of
`parseInt(t.decimals)` (`none` models NaN, which `?? 18` does *not* replace);
`balance_formatted`, when present and truthy, is the numeric value of the
formatted-balance string; `balance` the plain decimal balance string. -/
structure MoralisTok where
  token_address : String
  decimals : Option Nat
  balance_formatted : Option ℚ
  balance : Option Nat
  name : Option String
  symbol : Option String
  logo : Option String
  thumbnail : Option String
deriving DecidableEq, Repr

/-- A token entry of the Monad tokens route. -/
structure MonadTok where
  id : String
  name : String
  symbol : String
  balance : JNum
  usdPrice : JNum
  nativePrice : JNum
  totalValue : JNum
  image : String
  chain : String
  isToken : Bool
  address : Option String
deriving DecidableEq, Repr

/-- Native MON entry (lines 437-454): pushed when the Moralis `balance`
string is truthy and not `'0'` and `parseInt(raw, 10) / 1e18 > 0`.
`nativePrice` is the constant `'1.0000'`. -/
def monadNativeEntry (rawBalance : Option String) (monUsdPrice : ℚ) : List MonadTok :=
  match rawBalance with
  | none => []
  | some s =>
    if s = "" ∨ s = "0" then []
    else
      let balance := (parseInt10 s).divPos 1000000000000000000
      if JNum.lt (.num 0) balance then
        [{ id := "native-mon", name := "Monad", symbol := "MON",
           balance := jsToFixed 4 balance, usdPrice := .num monUsdPrice,
           nativePrice := .num 1,
           totalValue := jsToFixed 2 (balance.mul (.num monUsdPrice)),
           image := "https://assets.coingecko.com/coins/images/54540/small/monad.png",
           chain := "monad", isToken := true, address := none }]
      else []

/-- One Moralis ERC20 entry (lines 464-486): balance from `balance_formatted`
or `balance / 10^decimals` (NaN when `parseInt(t.decimals)` is NaN, since
`NaN ?? 18` is NaN); dropped when falsy or below the 1e-6 dust bound. -/
def moralisEntry (monUsdPrice : ℚ) (usdOf : String → JNum) (t : MoralisTok) :
    Option MonadTok :=
  let balance : JNum := match t.balance_formatted with
    | some q => .num q
    | none =>
      match t.decimals with
      | some d => .num (((t.balance.getD 0 : Nat) : ℚ) / 10 ^ d)
      | none => .nan
  if balance.falsy ∨ JNum.lt balance (.num (1 / 1000000)) then none
  else
    let usdPrice := usdOf t.token_address
    let nativePrice := if 0 < monUsdPrice then usdPrice.divPos monUsdPrice else .num 0
    some { id := t.token_address,
           name := jsOrStr (t.name.getD "") "Unknown Token",
           symbol := jsOrStr (t.symbol.getD "") "???",
           balance := jsToFixed 4 balance, usdPrice := usdPrice,
           nativePrice := jsToFixed 4 nativePrice,
           totalValue := jsToFixed 2 (balance.mul usdPrice),
           image := jsOrStr (t.logo.getD "") (jsOrStr (t.thumbnail.getD "")
             ("https://via.placeholder.com/400/836EF9/ffffff?text="
              ++ jsOrStr (t.symbol.getD "") "MON")),
           chain := "monad", isToken := true, address := some t.token_address }

/-- `KNOWN_MONAD_TOKENS` (lines 495-505). -/
def KNOWN_MONAD_TOKENS : List String :=
  ["0x81a224f8a62f52bde942dbf23a56df77a10b7777",
   "0x3bd359c1119da7da1d913d1c4d2b7c461115433a",
   "0xee8c0e9f1bffb4eb878d8f15f368a02a35481242",
   "0xe7cd86e13ac4309349f30b3435a9d337750fc82d",
   "0x01bff41798a0bcf287b996046ca68b395dbc1071",
   "0x754704bc059f8c67012fed69bc8a327a5aafb603",
   "0x1ad7052bb331a0529c1981c3ec2bc4663498a110",
   "0xcf5a6076cfa32686c0df13abada2b40dec133f1d",
   "0x6131b5fae19ea4f9d964eac0408e4408b66337b5"]

/-- `'0x70a08231' + '000000000000000000000000' + address.slice(2).toLowerCase()`. -/
def balanceCallData (address : String) : List Char :=
  "0x70a08231000000000000000000000000".data ++ (address.data.drop 2).map Char.toLower

/-- Known-contract probe, fallback stage 1 (lines 551-593).  `ethCall c d`
is the `rpcCall('eth_call', ...)` result for contract `c` and calldata `d`
(`none` = all RPCs failed). -/
def monadKnownProbe (address : String) (monUsdPrice : ℚ) (usdOf : String → JNum)
    (ethCall : String → List Char → Option (List Char)) (contractAddr : String) :
    Option MonadTok :=
  match ethCall contractAddr (balanceCallData address) with
  | none => none
  | some b =>
    if b = [] ∨ b = "0x".data ∨ b = ("0x" ++ String.mk (List.replicate 64 '0')).data then none
    else
      match bigIntHex? b with
      | none => none
      | some rawBal =>
        if rawBal = 0 then none
        else
          let decResult := ethCall contractAddr "0x313ce567".data
          let decimals : Option Nat := match decResult with
            | some d => if d ≠ [] ∧ d ≠ "0x".data then parseHex16N d else some 18
            | none => some 18
          let symbol := rpcSymbol (ethCall contractAddr "0x95d89b41".data)
          let name := rpcName (ethCall contractAddr "0x06fdde03".data) symbol
          let balance : JNum := match decimals with
            | some d => .num ((rawBal : ℚ) / 10 ^ d)
            | none => .nan
          if JNum.lt balance (.num (1 / 1000000)) then none
          else
            let usdPrice := usdOf contractAddr
            let nativePrice := if 0 < monUsdPrice then usdPrice.divPos monUsdPrice else .num 0
            some { id := contractAddr, name := String.mk name, symbol := String.mk symbol,
                   balance := jsToFixed 4 balance, usdPrice := usdPrice,
                   nativePrice := jsToFixed 4 nativePrice,
                   totalValue := jsToFixed 2 (balance.mul usdPrice),
                   image := "https://via.placeholder.com/50/836EF9/ffffff?text="
                     ++ encodeURIComponent (String.mk symbol),
                   chain := "monad", isToken := true, address := some contractAddr }

/-- Log-scan probe, fallback stage 2 (lines 619-649); identical to stage 1
except that the balance result is only rejected for `null`/`'0x'` (no
all-zero-word string test — the `rawBal === 0` test still catches it). -/
def monadLogProbe (address : String) (monUsdPrice : ℚ) (usdOf : String → JNum)
    (ethCall : String → List Char → Option (List Char)) (contractAddr : String) :
    Option MonadTok :=
  match ethCall contractAddr (balanceCallData address) with
  | none => none
  | some b =>
    if b = [] ∨ b = "0x".data then none
    else
      match bigIntHex? b with
      | none => none
      | some rawBal =>
        if rawBal = 0 then none
        else
          let decResult := ethCall contractAddr "0x313ce567".data
          let decimals : Option Nat := match decResult with
            | some d => if d ≠ [] ∧ d ≠ "0x".data then parseHex16N d else some 18
            | none => some 18
          let symbol := rpcSymbol (ethCall contractAddr "0x95d89b41".data)
          let name := rpcName (ethCall contractAddr "0x06fdde03".data) symbol
          let balance : JNum := match decimals with
            | some d => .num ((rawBal : ℚ) / 10 ^ d)
            | none => .nan
          if JNum.lt balance (.num (1 / 1000000)) then none
          else
            let usdPrice := usdOf contractAddr
            let nativePrice := if 0 < monUsdPrice then usdPrice.divPos monUsdPrice else .num 0
            some { id := contractAddr, name := String.mk name, symbol := String.mk symbol,
                   balance := jsToFixed 4 balance, usdPrice := usdPrice,
                   nativePrice := jsToFixed 4 nativePrice,
                   totalValue := jsToFixed 2 (balance.mul usdPrice),
                   image := "https://via.placeholder.com/50/836EF9/ffffff?text="
                     ++ encodeURIComponent (String.mk symbol),
                   chain := "monad", isToken := true, address := some contractAddr }

/-- `[...new Set(xs)]`: dedup keeping first occurrences. -/
def jsSetDedup (l : List String) : List String :=
  l.foldl (fun acc a => if acc.contains a then acc else acc ++ [a]) []

/-- One `eth_getLogs` entry (only the `address` field is used). -/
structure LogEntry where
  address : Option String
deriving DecidableEq, Repr

/-- The deduped new contract addresses from the Transfer-log scan
(lines 613-616). -/
def monadLogScanContracts (knownAddresses : List String) (logs : List LogEntry) :
    List String :=
  jsSetDedup ((logs.filterMap (fun l => l.address.map jsToLower)).filter
    (fun a => !(knownAddresses.contains a)
      && !((KNOWN_MONAD_TOKENS.map jsToLower).contains a)))

/-- The Monad tokens route, `mode === 'tokens'` branch (lines 405-658).
Inputs model, in order: the presence of the Moralis API key; `ok`-ness of the
two coupled Moralis fetches; the parsed native-balance body's `balance`
string; the parsed ERC20 body's `result` array; the awaited
`fetchNativePrice('MON')`; the awaited per-address `fetchUSDPrice`; the
wallet address; and the RPC-fallback oracles (`eth_call`,
`eth_blockNumber`, `eth_getLogs`). -/
def monadTokensRoute (hasMoralisKey nativeOk erc20Ok : Bool)
    (nativeBalance : Option String) (erc20Result : Option (List MoralisTok))
    (monUsdPrice : ℚ) (usdOf : String → JNum) (address : String)
    (ethCall : String → List Char → Option (List Char))
    (blockNumber : Option (List Char)) (getLogs : Option (List LogEntry)) :
    List MonadTok :=
  if !hasMoralisKey then []
  else if !nativeOk || !erc20Ok then []
  else
    let moralisResult := erc20Result.getD []
    let knownAddresses := moralisResult.map (fun t => jsToLower t.token_address)
    let contractsToCheck := KNOWN_MONAD_TOKENS.filter
      (fun a => !(knownAddresses.contains (jsToLower a)))
    let extraToks :=
      match blockNumber with
      | none => []
      | some lb =>
        if lb = [] then []
        else
          match getLogs with
          | none => []
          | some logs =>
            if logs.length = 0 then []
            else ((monadLogScanContracts knownAddresses logs).take 15).filterMap
                   (monadLogProbe address monUsdPrice usdOf ethCall)
    monadNativeEntry nativeBalance monUsdPrice
      ++ moralisResult.filterMap (moralisEntry monUsdPrice usdOf)
      ++ contractsToCheck.filterMap (monadKnownProbe address monUsdPrice usdOf ethCall)
      ++ extraToks

-- ### Cardano adapter (lines 948-1155)

/-- Request mode of the `/api/:mode(nfts|tokens)/...` routes. -/
inductive CMode where
  | nfts
  | tokens
deriving DecidableEq, Repr

/-- One character of the handle regex `/^[a-z0-9_-]+$/i`. -/
def isHandleChar (c : Char) : Bool :=
  c.isAlpha ∨ c.isDigit ∨ c = '_' ∨ c = '-'

/-- The handle test of the Cardano route (line 981):
`address.startsWith('$') || (!addr-prefix && !stake-prefix && regex)`. -/
def isHandle (address : String) : Bool :=
  jsStartsWith address "$"
    || (!(jsStartsWith address "addr") && !(jsStartsWith address "stake")
        && address != "" && address.data.all isHandleChar)

/-- `decodeAssetName(hex)` (lines 1057-1063): decode hex to a string, keep it
only when it is entirely printable ASCII and non-empty (`/^[ -~]+$/`), then
trim. -/
def decodeAssetName (hex : Option (List Char)) : String :=
  match hex with
  | none => ""
  | some h =>
    if h = [] then ""
    else
      let cs := (hexBytes h).map Char.ofNat
      if cs ≠ [] ∧ cs.all (fun c => ' ' ≤ c ∧ c ≤ '~') then String.mk (jsTrim cs) else ""

/-- A JSON value in an image-bearing metadata field: a string, an array of
strings, or something else (skipped by the `typeof` test). -/
inductive JVal where
  | str (s : String)
  | arr (xs : List String)
  | other
deriving DecidableEq, Repr

/-- A JSON value in a name field: a string or an array of strings. -/
inductive JStrA where
  | str (s : String)
  | arr (xs : List String)
deriving DecidableEq, Repr

/-- One candidate of `resolveCardanoImage`, after array join and trim:
`data:` URIs pass, `ipfs://` and bare CIDs (length ≥ 46) go to the
Cloudflare gateway, `http` URLs pass, everything else is skipped. -/
def cardanoImageString (s0 : String) : Option String :=
  let img := jsTrimStr s0
  if img = "" then none
  else if jsStartsWith img "data:" then some img
  else if jsStartsWith img "ipfs://" then
    some ("https://cloudflare-ipfs.com/ipfs/" ++ String.mk (img.data.drop 7))
  else if jsStartsWith img "http" then some img
  else if 46 ≤ img.length then some ("https://cloudflare-ipfs.com/ipfs/" ++ img)
  else none

/-- `resolveCardanoImage` (lines 1067-1090) over the ordered candidate list
`[onchain.image, onchain.logo, onchain.icon, registry.logo, registry.url]`. -/
def resolveCardanoImage : List (Option JVal) → String
  | [] => ""
  | none :: rest => resolveCardanoImage rest
  | some v :: rest =>
    match (match v with
           | .other => none
           | .arr xs => cardanoImageString (String.join xs)
           | .str s => cardanoImageString s) with
    | some url => url
    | none => resolveCardanoImage rest

/-- Blockfrost `onchain_metadata`. -/
structure OnchainMeta where
  name : Option JStrA
  ticker : Option String
  image : Option JVal
  logo : Option JVal
  icon : Option JVal
  attributes : Option (List String)
  description : Option String
deriving DecidableEq, Repr

/-- Blockfrost CIP-26 registry `metadata`. -/
structure RegistryMeta where
  name : Option String
  ticker : Option String
  decimals : Option Nat
  logo : Option JVal
  url : Option JVal
deriving DecidableEq, Repr

/-- A Blockfrost per-asset metadata body (`/assets/{unit}`). -/
structure CMeta where
  asset_name : Option (List Char)
  onchain_metadata : Option OnchainMeta
  metadata : Option RegistryMeta
deriving DecidableEq, Repr

/-- One asset under a stake account: `unit` and `parseInt(quantity)`. -/
structure CAsset where
  unit : String
  quantity : Nat
deriving DecidableEq, Repr

/-- A token/NFT entry of the Cardano route. -/
structure CardTok where
  id : String
  name : String
  chain : String
  image : String
  balance : Option JNum
  usdPrice : ℚ
  nativePrice : JNum
  totalValue : JNum
  symbol : String
  isToken : Bool
  traits : List String
  description : String
deriving DecidableEq, Repr

/-- One per-asset task of the Cardano route (lines 1093-1147): fetch the
asset's metadata (`metaOf`, `none` = non-ok response or thrown error, both
swallowed to `null`), classify by `parseInt(a.quantity) === 1`, filter by
mode, then build the entry (name, ticker, CoinGecko-by-ticker price with the
stablecoin heuristic, decimal-scaled balance, image).  `cgOf` is the awaited
`fetchCoinGeckoPrice` value for a CoinGecko id. -/
def cardanoAssetTask (mode : CMode) (adaPrice : ℚ) (cgOf : String → ℚ)
    (metaOf : String → Option CMeta) (a : CAsset) : Option CardTok :=
  match metaOf a.unit with
  | none => none
  | some meta =>
    let isNFT := a.quantity = 1
    if (mode = CMode.tokens ∧ isNFT) ∨ (mode = CMode.nfts ∧ ¬isNFT) then none
    else
      let decodedName := decodeAssetName meta.asset_name
      let onchainName : String :=
        match meta.onchain_metadata.bind (·.name) with
        | some (.arr xs) => String.join xs
        | some (.str s) => if s = "" then (meta.metadata.bind (·.name)).getD "" else s
        | none => (meta.metadata.bind (·.name)).getD ""
      let tokenName := jsTrimStr (jsOrStr (jsOrStr onchainName decodedName) "Cardano Asset")
      let tkr := jsOrStr ((meta.metadata.bind (·.ticker)).getD "")
                         ((meta.onchain_metadata.bind (·.ticker)).getD "")
      let symbol := jsOrStr tkr
        (jsOrStr (String.mk (decodedName.data.take 8))
                 (String.mk ((a.unit.data.drop 56).take 6)))
      let u0 : ℚ := match List.lookup (jsToUpper tkr) NATIVE_CG_IDS with
        | some cg => cgOf cg
        | none => 0
      let su := jsToUpper symbol
      let usdPrice : ℚ :=
        if u0 = 0 ∧ (List.IsInfix "USD".data su.data ∨ su = "IUSD" ∨ su = "USDA" ∨ su = "DJED")
        then 1 else u0
      let balance : ℚ := (a.quantity : ℚ) / 10 ^ ((meta.metadata.bind (·.decimals)).getD 0)
      let nativePrice : ℚ := if 0 < adaPrice then usdPrice / adaPrice else 0
      let imageUrl := resolveCardanoImage
        [meta.onchain_metadata.bind (·.image), meta.onchain_metadata.bind (·.logo),
         meta.onchain_metadata.bind (·.icon), meta.metadata.bind (·.logo),
         meta.metadata.bind (·.url)]
      some { id := a.unit, name := tokenName, chain := "cardano", image := imageUrl,
             balance := if mode = CMode.tokens then some (jsToFixed 2 (.num balance)) else none,
             usdPrice := usdPrice,
             nativePrice := jsToFixed 4 (.num nativePrice),
             totalValue := jsToFixed 2 (.num (balance * usdPrice)),
             symbol := symbol, isToken := mode = CMode.tokens,
             traits := (meta.onchain_metadata.bind (·.attributes)).getD [],
             description := (meta.onchain_metadata.bind (·.description)).getD "" }

/-- One entry of a Blockfrost address `amount` array. -/
structure AmtU where
  unit : String
  quantity : Nat
deriving DecidableEq, Repr

/-- A Blockfrost `/addresses/{address}` body. -/
structure AddrData where
  amount : Option (List AmtU)
  stake_address : Option String
deriving DecidableEq, Repr

/-- Outcome of the Cardano route: a 404 error response or a 200 JSON list. -/
inductive CardanoRes where
  | notFound (msg : String)
  | json (toks : List CardTok)
deriving DecidableEq, Repr

/-- Native ADA entry (lines 1008-1026), tokens mode only. -/
def cardanoNativeEntry (mode : CMode) (ad : AddrData) (adaPrice : ℚ) : List CardTok :=
  if mode = CMode.tokens then
    let lovelace : Nat := (((ad.amount.getD []).find? (fun u => u.unit == "lovelace")).map
      (·.quantity)).getD 0
    let adaBalance : ℚ := (lovelace : ℚ) / 1000000
    if 0 < adaBalance then
      [{ id := "native-ada", name := "Cardano", chain := "cardano",
         image := "https://cryptologos.cc/logos/cardano-ada-logo.png",
         balance := some (jsToFixed 2 (.num adaBalance)), usdPrice := adaPrice,
         nativePrice := .num 1, totalValue := jsToFixed 2 (.num (adaBalance * adaPrice)),
         symbol := "ADA", isToken := true, traits := [], description := "" }]
    else []
  else []

/-- The merged asset list (lines 1028-1052): stake-account assets, then any
direct-address assets whose unit was not already present. -/
def cardanoMergedAssets (ad : AddrData) (stakeAssets : String → List CAsset) :
    List CAsset :=
  let assets0 := match ad.stake_address with
    | some sa => stakeAssets sa
    | none => []
  let direct := (ad.amount.getD []).filter
    (fun u => decide (u.unit ≠ "lovelace" ∧ 0 < u.quantity))
  let existing := assets0.map (·.unit)
  assets0 ++ (direct.filter (fun u => !(existing.contains u.unit))).map
    (fun u => ⟨u.unit, u.quantity⟩)

/-- The Cardano route body after handle resolution (lines 991-1154):
Blockfrost address lookup (`none` = HTTP 404 → empty 200 list), native ADA
entry, merged assets, one metadata task per asset. -/
def cardanoRouteBody (mode : CMode) (addr : String) (adaPrice : ℚ)
    (addrLookup : String → Option AddrData) (stakeAssets : String → List CAsset)
    (cgOf : String → ℚ) (metaOf : String → Option CMeta) : CardanoRes :=
  match addrLookup addr with
  | none => .json []
  | some ad =>
    .json (cardanoNativeEntry mode ad adaPrice
      ++ ((cardanoMergedAssets ad stakeAssets).map
            (cardanoAssetTask mode adaPrice cgOf metaOf)).reduceOption)

/-- The full Cardano route (lines 978-1155): handle detection and resolution
(`resolve` models `resolveAdaHandle`, `none` = resolution failed) before any
balance lookup; a failed resolution is a 404 error response. -/
def cardanoRoute (mode : CMode) (address : String)
    (resolve : String → Option String) (adaPrice : ℚ)
    (addrLookup : String → Option AddrData) (stakeAssets : String → List CAsset)
    (cgOf : String → ℚ) (metaOf : String → Option CMeta) : CardanoRes :=
  if isHandle address then
    match resolve address with
    | none => .notFound ("Handle \"" ++ address ++ "\" not found")
    | some resolved =>
      cardanoRouteBody mode resolved adaPrice addrLookup stakeAssets cgOf metaOf
  else cardanoRouteBody mode address adaPrice addrLookup stakeAssets cgOf metaOf

/-- The per-asset metadata tasks the current route spawns: one per merged
asset, with no cap (`const tasks = assets.map(async (a) => ...)`,
line 1093). -/
def cardanoMetaTasks (mode : CMode) (adaPrice : ℚ) (cgOf : String → ℚ)
    (metaOf : String → Option CMeta) (assets : List CAsset) : List (Option CardTok) :=
  assets.map (cardanoAssetTask mode adaPrice cgOf metaOf)

/-- Earlier revision (src/unnamed/part_003, line 205): the Cardano NFT route
there selected `assets.filter(a => parseInt(a.quantity) === 1).slice(0, 50)`
before spawning one metadata task per selected asset. -/
def p3NftSelected (assets : List CAsset) : List CAsset :=
  (assets.filter (fun a => a.quantity == 1)).take 50

/-- The claim's formula for `nativePrice`, written from the spec's words for
comparison with the code: `usdPrice / nativeUsdPrice` (formatted to 4 dp)
when the chain's native USD price is known and > 0, else the `"0.0000"`
zero sentinel. -/
def specNativePrice (usd : JNum) (nativeUsd : ℚ) : JNum :=
  if 0 < nativeUsd then jsToFixed 4 (usd.divPos nativeUsd) else .num 0

-- ### Cache lemmas

theorem cGet_cSet_self (c : Cache) (k : String) (v : JNum) (t now : ℤ)
    (h : now - t < 90000) : cGet (cSet c k v t) now k = some v := by
  simp [cGet, cSet, List.lookup, h]

theorem lookup_cSet_self (c : Cache) (k : String) (v : JNum) (t : ℤ) :
    List.lookup k (cSet c k v t) = some ⟨v, t⟩ := by
  simp [cSet, List.lookup]

theorem cg_second_call (up1 up2 : Except Unit (Option ℚ)) (t1 t2 : ℤ) (k : String)
    (c : Cache) (e : CEntry)
    (h1 : List.lookup k (fetchCoinGeckoPrice up1 t1 k c).cache = some e)
    (h2 : t2 - e.ts < 90000) :
    fetchCoinGeckoPrice up2 t2 k (fetchCoinGeckoPrice up1 t1 k c).cache =
      ⟨(fetchCoinGeckoPrice up1 t1 k c).v, (fetchCoinGeckoPrice up1 t1 k c).cache, false⟩ := by
  rcases hg : cGet c t1 k with _ | hit
  · simp only [fetchCoinGeckoPrice, hg] at h1 ⊢
    rw [lookup_cSet_self] at h1
    injection h1 with h1
    subst h1
    rw [cGet_cSet_self _ _ _ _ _ h2]
  · simp only [fetchCoinGeckoPrice, hg] at h1 ⊢
    have hx : (if t1 - e.ts < 90000 then some e.v else none) = some hit := by
      rw [← hg]; simp [cGet, h1]
    by_cases hfr : t1 - e.ts < 90000
    · rw [if_pos hfr] at hx
      injection hx with hx
      have hc2 : cGet c t2 k = some hit := by simp [cGet, h1, h2, hx]
      rw [hc2]
    · rw [if_neg hfr] at hx
      exact absurd hx (by simp)

theorem ds_second_call (up1 up2 : Except Unit DsResp) (t1 t2 : ℤ) (chainId address : String)
    (c : Cache) (e : CEntry)
    (h1 : List.lookup ("ds-" ++ chainId ++ "-" ++ address)
            (fetchUSDPrice up1 t1 chainId address c).cache = some e)
    (h2 : t2 - e.ts < 90000) :
    fetchUSDPrice up2 t2 chainId address (fetchUSDPrice up1 t1 chainId address c).cache =
      ⟨(fetchUSDPrice up1 t1 chainId address c).v,
       (fetchUSDPrice up1 t1 chainId address c).cache, false⟩ := by
  by_cases hz : address = "" ∨ address = "0x0000000000000000000000000000000000000000"
  · simp only [fetchUSDPrice, if_pos hz]
  · rcases hg : cGet c t1 ("ds-" ++ chainId ++ "-" ++ address) with _ | hit
    · simp only [fetchUSDPrice, if_neg hz, hg] at h1 ⊢
      rw [lookup_cSet_self] at h1
      injection h1 with h1
      subst h1
      rw [cGet_cSet_self _ _ _ _ _ h2]
    · simp only [fetchUSDPrice, if_neg hz, hg] at h1 ⊢
      have hx : (if t1 - e.ts < 90000 then some e.v else none) = some hit := by
        rw [← hg]; simp [cGet, h1]
      by_cases hfr : t1 - e.ts < 90000
      · rw [if_pos hfr] at hx
        injection hx with hx
        have hc2 : cGet c t2 ("ds-" ++ chainId ++ "-" ++ address) = some hit := by
          simp [cGet, h1, h2, hx]
        rw [hc2]
      · rw [if_neg hfr] at hx
        exact absurd hx (by simp)

/-- **C2** (confirmed): for every price-cache key, if the resolver is called a
second time while the first call's cache entry is still fresh (age < TTL =
90 000 ms), the second call performs no upstream fetch (`fetched = false`),
returns exactly the value the first call returned, and leaves the cache
unchanged.  Stated for both resolvers: `fetchCoinGeckoPrice` (keyed by
CoinGecko id) and `fetchUSDPrice` (keyed by `ds-<chain>-<address>`). -/
theorem price_cache_idempotent_within_ttl
    (up1 up2 : Except Unit (Option ℚ)) (dup1 dup2 : Except Unit DsResp)
    (t1 t2 : ℤ) (k chainId address : String) (c d : Cache) (e f : CEntry) :
    (List.lookup k (fetchCoinGeckoPrice up1 t1 k c).cache = some e →
      t2 - e.ts < 90000 →
      fetchCoinGeckoPrice up2 t2 k (fetchCoinGeckoPrice up1 t1 k c).cache =
        ⟨(fetchCoinGeckoPrice up1 t1 k c).v, (fetchCoinGeckoPrice up1 t1 k c).cache, false⟩) ∧
    (List.lookup ("ds-" ++ chainId ++ "-" ++ address)
        (fetchUSDPrice dup1 t1 chainId address d).cache = some f →
      t2 - f.ts < 90000 →
      fetchUSDPrice dup2 t2 chainId address (fetchUSDPrice dup1 t1 chainId address d).cache =
        ⟨(fetchUSDPrice dup1 t1 chainId address d).v,
         (fetchUSDPrice dup1 t1 chainId address d).cache, false⟩) :=
  ⟨fun h1 h2 => cg_second_call up1 up2 t1 t2 k c e h1 h2,
   fun h1 h2 => ds_second_call dup1 dup2 t1 t2 chainId address d f h1 h2⟩

/-- Witness for C2 at concrete inputs: first CoinGecko call at t=0 caches 5;
a second call at t=1000 with a *different* upstream answer (7) still returns
5 without fetching.  Likewise for the DexScreener resolver. -/
theorem price_cache_idempotent_within_ttl_witness :
    (fetchCoinGeckoPrice (.ok (some 7)) 1000 "ethereum"
        (fetchCoinGeckoPrice (.ok (some 5)) 0 "ethereum" []).cache =
      ⟨(fetchCoinGeckoPrice (.ok (some 5)) 0 "ethereum" []).v,
       (fetchCoinGeckoPrice (.ok (some 5)) 0 "ethereum" []).cache, false⟩) ∧
    (fetchUSDPrice (.ok ⟨some [⟨"ethereum", some 3⟩]⟩) 1000 "ethereum" "0xabc"
        (fetchUSDPrice (.error ()) 0 "ethereum" "0xabc" []).cache =
      ⟨(fetchUSDPrice (.error ()) 0 "ethereum" "0xabc" []).v,
       (fetchUSDPrice (.error ()) 0 "ethereum" "0xabc" []).cache, false⟩) :=
  ⟨(price_cache_idempotent_within_ttl (.ok (some 5)) (.ok (some 7)) (.error ())
      (.ok ⟨some [⟨"ethereum", some 3⟩]⟩) 0 1000 "ethereum" "ethereum" "0xabc" [] []
      ⟨.num 5, 0⟩ ⟨.num 0, 0⟩).1 (by decide) (by decide),
   (price_cache_idempotent_within_ttl (.ok (some 5)) (.ok (some 7)) (.error ())
      (.ok ⟨some [⟨"ethereum", some 3⟩]⟩) 0 1000 "ethereum" "ethereum" "0xabc" [] []
      ⟨.num 5, 0⟩ ⟨.num 0, 0⟩).2 (by decide) (by decide)⟩

theorem cg_negative_cache (up2 : Except Unit (Option ℚ)) (t1 t2 : ℤ) (k : String)
    (c : Cache) (h0 : cGet c t1 k = none) (h2 : t2 - t1 < 90000) :
    (fetchCoinGeckoPrice (.error ()) t1 k c).v = .num 0 ∧
    List.lookup k (fetchCoinGeckoPrice (.error ()) t1 k c).cache = some ⟨.num 0, t1⟩ ∧
    fetchCoinGeckoPrice up2 t2 k (fetchCoinGeckoPrice (.error ()) t1 k c).cache =
      ⟨.num 0, (fetchCoinGeckoPrice (.error ()) t1 k c).cache, false⟩ := by
  simp only [fetchCoinGeckoPrice, h0]
  refine ⟨rfl, ?_, ?_⟩
  · rw [lookup_cSet_self]; rfl
  · rw [cGet_cSet_self _ _ _ _ _ h2]; rfl

theorem ds_negative_cache (up2 : Except Unit DsResp) (t1 t2 : ℤ)
    (chainId address : String) (c : Cache)
    (hz : ¬(address = "" ∨ address = "0x0000000000000000000000000000000000000000"))
    (h0 : cGet c t1 ("ds-" ++ chainId ++ "-" ++ address) = none)
    (h2 : t2 - t1 < 90000) :
    (fetchUSDPrice (.error ()) t1 chainId address c).v = .num 0 ∧
    List.lookup ("ds-" ++ chainId ++ "-" ++ address)
      (fetchUSDPrice (.error ()) t1 chainId address c).cache = some ⟨.num 0, t1⟩ ∧
    fetchUSDPrice up2 t2 chainId address (fetchUSDPrice (.error ()) t1 chainId address c).cache =
      ⟨.num 0, (fetchUSDPrice (.error ()) t1 chainId address c).cache, false⟩ := by
  simp only [fetchUSDPrice, if_neg hz, h0]
  refine ⟨rfl, ?_, ?_⟩
  · rw [lookup_cSet_self]; rfl
  · rw [cGet_cSet_self _ _ _ _ _ h2]; rfl

/-- **C9** (confirmed): negative results are cached.  When an upstream price
fetch fails (the resolver's `catch` path), the resolver stores `0` under the
key, and any later call for the same key within the 90 s TTL returns `0`
without issuing an upstream call, even when the later upstream would succeed
(`up2` is arbitrary).  Stated for both `fetchCoinGeckoPrice` and
`fetchUSDPrice`. -/
theorem failed_price_fetch_caches_zero
    (up2 : Except Unit (Option ℚ)) (dup2 : Except Unit DsResp) (t1 t2 : ℤ)
    (k chainId address : String) (c d : Cache) :
    (cGet c t1 k = none → t2 - t1 < 90000 →
      (fetchCoinGeckoPrice (.error ()) t1 k c).v = .num 0 ∧
      fetchCoinGeckoPrice up2 t2 k (fetchCoinGeckoPrice (.error ()) t1 k c).cache =
        ⟨.num 0, (fetchCoinGeckoPrice (.error ()) t1 k c).cache, false⟩) ∧
    (¬(address = "" ∨ address = "0x0000000000000000000000000000000000000000") →
      cGet d t1 ("ds-" ++ chainId ++ "-" ++ address) = none → t2 - t1 < 90000 →
      (fetchUSDPrice (.error ()) t1 chainId address d).v = .num 0 ∧
      fetchUSDPrice dup2 t2 chainId address
          (fetchUSDPrice (.error ()) t1 chainId address d).cache =
        ⟨.num 0, (fetchUSDPrice (.error ()) t1 chainId address d).cache, false⟩) :=
  ⟨fun h0 h2 => ⟨(cg_negative_cache up2 t1 t2 k c h0 h2).1,
                 (cg_negative_cache up2 t1 t2 k c h0 h2).2.2⟩,
   fun hz h0 h2 => ⟨(ds_negative_cache dup2 t1 t2 chainId address d hz h0 h2).1,
                    (ds_negative_cache dup2 t1 t2 chainId address d hz h0 h2).2.2⟩⟩

/-- Witness for C9: a failed fetch at t=0 caches 0; at t=5000 an upstream
that would now answer 42 (resp. a pair priced 42) is not consulted and the
resolver still returns 0. -/
theorem failed_price_fetch_caches_zero_witness :
    ((fetchCoinGeckoPrice (.error ()) 0 "monad" []).v = .num 0 ∧
      fetchCoinGeckoPrice (.ok (some 42)) 5000 "monad"
          (fetchCoinGeckoPrice (.error ()) 0 "monad" []).cache =
        ⟨.num 0, (fetchCoinGeckoPrice (.error ()) 0 "monad" []).cache, false⟩) ∧
    ((fetchUSDPrice (.error ()) 0 "monad" "0xdef" []).v = .num 0 ∧
      fetchUSDPrice (.ok ⟨some [⟨"monad", some 42⟩]⟩) 5000 "monad" "0xdef"
          (fetchUSDPrice (.error ()) 0 "monad" "0xdef" []).cache =
        ⟨.num 0, (fetchUSDPrice (.error ()) 0 "monad" "0xdef" []).cache, false⟩) :=
  ⟨(failed_price_fetch_caches_zero (.ok (some 42)) (.ok ⟨some [⟨"monad", some 42⟩]⟩)
      0 5000 "monad" "monad" "0xdef" [] []).1 (by decide) (by decide),
   (failed_price_fetch_caches_zero (.ok (some 42)) (.ok ⟨some [⟨"monad", some 42⟩]⟩)
      0 5000 "monad" "monad" "0xdef" [] []).2 (by decide) (by decide) (by decide)⟩

-- ### C1: Monad coupled-call invariant

/-- **C1** (confirmed): in the Monad token route the two Moralis calls
(native balance, ERC20 list) are coupled: when exactly one of them is non-ok
(`nativeOk ≠ erc20Ok`), the route returns the empty token list — regardless
of every payload, price and RPC-fallback oracle, so no list is ever built
from the one successful call. -/
theorem monad_partial_failure_returns_empty
    (hasKey nativeOk erc20Ok : Bool) (nativeBalance : Option String)
    (erc20Result : Option (List MoralisTok)) (monUsdPrice : ℚ) (usdOf : String → JNum)
    (address : String) (ethCall : String → List Char → Option (List Char))
    (blockNumber : Option (List Char)) (getLogs : Option (List LogEntry))
    (h : nativeOk ≠ erc20Ok) :
    monadTokensRoute hasKey nativeOk erc20Ok nativeBalance erc20Result monUsdPrice
      usdOf address ethCall blockNumber getLogs = [] := by
  cases nativeOk <;> cases erc20Ok <;>
    first
      | exact absurd rfl h
      | (cases hasKey <;> rfl)

/-- Witness for C1: a wallet with 2500 MON native balance and an empty ERC20
list still yields `[]` when the other call failed, in both directions. -/
theorem monad_partial_failure_returns_empty_witness :
    monadTokensRoute true true false (some "2500000000000000000000") (some [])
      1 (fun _ => JNum.nan) "0xabc" (fun _ _ => none) none none = [] ∧
    monadTokensRoute true false true (some "2500000000000000000000") (some [])
      1 (fun _ => JNum.nan) "0xabc" (fun _ _ => none) none none = [] :=
  ⟨monad_partial_failure_returns_empty true true false (some "2500000000000000000000")
      (some []) 1 (fun _ => JNum.nan) "0xabc" (fun _ _ => none) none none (by decide),
   monad_partial_failure_returns_empty true false true (some "2500000000000000000000")
      (some []) 1 (fun _ => JNum.nan) "0xabc" (fun _ _ => none) none none (by decide)⟩

-- ### C6: Cardano fungible / non-fungible classification

/-- **C6** (confirmed): a Cardano asset task yields an entry in the NFT
listing exactly when its metadata fetch succeeded and its on-chain quantity
is exactly 1, and an entry in the token listing exactly when the metadata
fetch succeeded and the quantity differs from 1 (e.g. 500) — so a
quantity-1 asset appears only in the NFT listing and a quantity-500 asset
only in the token listing. -/
theorem cardano_quantity_one_classification (adaPrice : ℚ) (cgOf : String → ℚ)
    (metaOf : String → Option CMeta) (a : CAsset) :
    ((cardanoAssetTask CMode.nfts adaPrice cgOf metaOf a).isSome
        ↔ (metaOf a.unit).isSome ∧ a.quantity = 1) ∧
    ((cardanoAssetTask CMode.tokens adaPrice cgOf metaOf a).isSome
        ↔ (metaOf a.unit).isSome ∧ a.quantity ≠ 1) := by
  cases h : metaOf a.unit <;> by_cases hq : a.quantity = 1 <;>
    simp [cardanoAssetTask, h, hq]

-- ### C10: Cardano handle detection and 404 on failed resolution

/-- **C10** (confirmed): the Cardano listing route treats as a resolvable
handle every input that does not start with `addr` or `stake` and consists
solely of letters, digits, underscores and hyphens (not only `$`-prefixed
ones), and when resolution fails it returns the HTTP 404 error response —
never an empty 200 list. -/
theorem cardano_bare_handle_resolution_404 (mode : CMode) (s : String)
    (resolve : String → Option String) (adaPrice : ℚ)
    (addrLookup : String → Option AddrData) (stakeAssets : String → List CAsset)
    (cgOf : String → ℚ) (metaOf : String → Option CMeta)
    (hne : s ≠ "") (ha : jsStartsWith s "addr" = false) (hs : jsStartsWith s "stake" = false)
    (hc : s.data.all isHandleChar = true) (hr : resolve s = none) :
    cardanoRoute mode s resolve adaPrice addrLookup stakeAssets cgOf metaOf =
      CardanoRes.notFound ("Handle \"" ++ s ++ "\" not found") := by
  have hh : isHandle s = true := by
    simp [isHandle, ha, hs, hc, hne]
  simp [cardanoRoute, hh, hr]

/-- Witness for C10: the bare (un-prefixed) input `coolhandle` is routed
through handle resolution, and a failed resolution yields the 404 outcome. -/
theorem cardano_bare_handle_resolution_404_witness :
    cardanoRoute CMode.tokens "coolhandle" (fun _ => none) 1 (fun _ => none)
      (fun _ => []) (fun _ => 0) (fun _ => none) =
      CardanoRes.notFound ("Handle \"coolhandle\" not found") :=
  cardano_bare_handle_resolution_404 CMode.tokens "coolhandle" (fun _ => none) 1
    (fun _ => none) (fun _ => []) (fun _ => 0) (fun _ => none)
    (by decide) (by decide) (by decide) (by decide) rfl

-- ### C7: the Cardano metadata batch is not bounded

/-- Counterexample for C7: a stake account holding 51 assets makes the
current Cardano route spawn 51 per-asset metadata tasks (one Blockfrost
`/assets/{unit}` lookup each) — more than any 30–50 bound, refuting
"a metadata lookup is issued for at most the first 30–50 assets". -/
theorem cardano_meta_tasks_unbounded_counterexample :
    (cardanoMetaTasks CMode.tokens 1 (fun _ => 0) (fun _ => none)
        ((List.range 51).map (fun i => ⟨toString i, 2⟩))).length = 51 ∧
    ¬(51 ≤ 50) := by
  constructor
  · simp [cardanoMetaTasks]
  · decide

/-- **C7** (corrected): the current Cardano route issues exactly one metadata
lookup per merged asset — the batch is unbounded, its size equals the asset
count.  Only the earlier revision in src/unnamed/part_003 bounded the batch:
there the NFT route selected `filter(quantity === 1).slice(0, 50)`, at most
the first 50 assets. -/
theorem cardano_meta_tasks_count (mode : CMode) (adaPrice : ℚ) (cgOf : String → ℚ)
    (metaOf : String → Option CMeta) (assets : List CAsset) :
    (cardanoMetaTasks mode adaPrice cgOf metaOf assets).length = assets.length ∧
    (p3NftSelected assets).length ≤ 50 := by
  constructor
  · simp [cardanoMetaTasks]
  · simp only [p3NftSelected]
    exact List.length_take_le 50 _

-- ### C8: on-chain string decoding

theorem padStartZero_dropWhile (l : List Char) :
    padStartZero l.length (l.dropWhile (fun c => c = '0')) = l := by
  induction l with
  | nil => rfl
  | cons c tl ih =>
    by_cases hc : c = '0'
    · subst hc
      rw [List.dropWhile_cons_of_pos (by simp)]
      have hlen := (List.dropWhile_suffix (l := tl) (fun c => decide (c = '0'))).length_le
      unfold padStartZero at ih ⊢
      rw [List.length_cons, Nat.succ_sub hlen, List.replicate_succ, List.cons_append, ih]
    · rw [List.dropWhile_cons_of_neg (by simpa using hc)]
      unfold padStartZero
      simp

theorem decodeString_bytes32 (b : List Char) (hb : b.length = 64) :
    decodeString (some ('0' :: 'x' :: b)) = bytesToCleanString (hexBytes b) := by
  have hbne : b ≠ [] := by
    intro h
    rw [h] at hb
    simp at hb
  have hne : ¬('0' :: 'x' :: b = [] ∨ '0' :: 'x' :: b = ['0', 'x']) := by
    simp [hbne]
  simp only [decodeString]
  rw [if_neg hne]
  simp only [List.drop_succ_cons, List.drop_zero]
  rw [if_neg (by rw [hb]; omega)]
  unfold decodeStringB32
  rw [← hb, padStartZero_dropWhile, List.take_of_length_le (by rw [hb])]

theorem decodeString_dynamic (w1 lw p : List Char) (len : Nat)
    (hw : w1.length = 64) (hlw : lw.length = 64)
    (hlen : parseHex16N lw = some len) (h0 : 0 < len) (h100 : len < 100) :
    decodeString (some ('0' :: 'x' :: (w1 ++ (lw ++ p)))) =
      bytesToCleanString (hexBytes (p.take (2 * len))) := by
  have hl : (w1 ++ (lw ++ p)) ≠ [] := by
    intro h
    have := congrArg List.length h
    simp [hw, hlw] at this
  have hne : ¬('0' :: 'x' :: (w1 ++ (lw ++ p)) = []
      ∨ '0' :: 'x' :: (w1 ++ (lw ++ p)) = ['0', 'x']) := by
    simp [hl]
  simp only [decodeString]
  rw [if_neg hne]
  simp only [List.drop_succ_cons, List.drop_zero]
  have hlen128 : 128 ≤ (w1 ++ (lw ++ p)).length := by
    simp [hw, hlw]
    omega
  rw [if_pos hlen128]
  have hd64 : (w1 ++ (lw ++ p)).drop 64 = lw ++ p := List.drop_left' hw
  have ht64 : (lw ++ p).take 64 = lw := List.take_left' hlw
  have hd128 : (w1 ++ (lw ++ p)).drop 128 = p := by
    rw [← List.append_assoc]
    exact List.drop_left' (by simp [hw, hlw])
  rw [hd64, ht64, hlen, hd128]
  simp [h0, h100]

/-- **C8** (confirmed): `decodeString` decodes the dynamic ABI string
encoding — for return data `0x` + offset word + length word (64 hex chars
encoding `len`, `0 < len < 100`) + payload, it yields the first `len`
payload bytes (space-stripped and trimmed); it decodes the legacy fixed
bytes32 encoding (a 64-hex-char word) through the
`replace/padStart/slice` fallback, which on such input is the word itself;
and for inputs where decoding yields nothing usable — null, `''`, `'0x'`,
or any input decoded to the empty string — the Monad RPC fallback's symbol
is the literal `UNKNOWN`. -/
theorem decode_string_dynamic_bytes32_and_unknown_fallback :
    (∀ (w1 lw p : List Char) (len : Nat), w1.length = 64 → lw.length = 64 →
        parseHex16N lw = some len → 0 < len → len < 100 →
        decodeString (some ('0' :: 'x' :: (w1 ++ (lw ++ p)))) =
          bytesToCleanString (hexBytes (p.take (2 * len)))) ∧
    (∀ b : List Char, b.length = 64 →
        decodeString (some ('0' :: 'x' :: b)) = bytesToCleanString (hexBytes b)) ∧
    decodeString none = [] ∧
    decodeString (some []) = [] ∧
    decodeString (some ['0', 'x']) = [] ∧
    (∀ h, decodeString h = [] → rpcSymbol h = "UNKNOWN".data) :=
  ⟨decodeString_dynamic, decodeString_bytes32, rfl, rfl, rfl,
   fun h hh => by simp [rpcSymbol, hh]⟩

/-- Witness for C8: the ABI encoding of the string `USDC` decodes to `USDC`;
the bytes32 word `MKR` (zero-padded) decodes to `MKR` followed by the padding
NUL bytes; the symbol fallback for `'0x'` return data is `UNKNOWN`. -/
theorem decode_string_witness :
    decodeString (some ('0' :: 'x' ::
      ("0000000000000000000000000000000000000000000000000000000000000020".data ++
       ("0000000000000000000000000000000000000000000000000000000000000004".data ++
        "5553444300000000000000000000000000000000000000000000000000000000".data)))) =
      "USDC".data ∧
    decodeString (some ('0' :: 'x' ::
        "4d4b520000000000000000000000000000000000000000000000000000000000".data)) =
      'M' :: 'K' :: 'R' :: List.replicate 29 (Char.ofNat 0) ∧
    rpcSymbol (some ['0', 'x']) = "UNKNOWN".data :=
  ⟨(decode_string_dynamic_bytes32_and_unknown_fallback.1
      "0000000000000000000000000000000000000000000000000000000000000020".data
      "0000000000000000000000000000000000000000000000000000000000000004".data
      "5553444300000000000000000000000000000000000000000000000000000000".data 4
      (by decide) (by decide) (by decide) (by decide) (by decide)).trans (by decide),
   (decode_string_dynamic_bytes32_and_unknown_fallback.2.1
      "4d4b520000000000000000000000000000000000000000000000000000000000".data
      (by decide)).trans (by decide),
   decode_string_dynamic_bytes32_and_unknown_fallback.2.2.2.2.2
      (some ['0', 'x']) (by decide)⟩

-- ### C4: the nativePrice formula

theorem jsToFixed_num_zero (d : Nat) : jsToFixed d (.num 0) = .num 0 := by
  have h : ((0 : ℚ) * 10 ^ d + 1 / 2) = 1 / 2 := by ring
  rw [jsToFixed, h]
  norm_num

/-- Counterexample for C4: a wallet holding exactly 2.5 ETH
(`eth_getBalance` result `0x22b1c8c1227a0000`), with the chain's native USD
price known and positive (3000).  The claim requires the native entry's
`nativePrice` to be `usdPrice / nativeUsdPrice = "1.0000"`, but the code sets
the native entry's `nativePrice` to the formatted *balance*, `"2.5000"`. -/
theorem native_price_counterexample :
    (fetchAlchemyTokens "ethereum" true (some "0x22b1c8c1227a0000".data) none 3000
        (fun _ => Except.error ()) (fun _ => JNum.nan)).map
      (fun a => (a.id, a.usdPrice, a.nativePrice)) =
      [("native", JNum.num 3000, JNum.num (5 / 2))] ∧
    specNativePrice (JNum.num 3000) 3000 = JNum.num 1 ∧
    JNum.num (5 / 2) ≠ JNum.num 1 := by
  refine ⟨?_, ?_, ?_⟩
  · have hp : parseHex16 "0x22b1c8c1227a0000".data = JNum.num 2500000000000000000 := by
      have h : parseHex16N "0x22b1c8c1227a0000".data = some 2500000000000000000 := by decide
      simp [parseHex16, h]
    have hne : ("0x22b1c8c1227a0000".data : List Char) ≠ [] := by decide
    norm_num [fetchAlchemyTokens, alchNativeEntry, alchNonZero, alchNativeCfg, _nc, hp, hne,
      JNum.divPos, JNum.lt, JNum.mul, jsToFixed]
  · norm_num [specNativePrice, jsToFixed, JNum.divPos]
  · norm_num

/-- **C4** (corrected): the `nativePrice = toFixed4(usdPrice/nativeUsdPrice)
when nativeUsdPrice > 0, else "0.0000"` formula holds for the ERC20 entries
of the EVM adapter and the Moralis ERC20 entries of the Monad adapter — but
NOT for native-currency entries: the EVM adapter's native entry carries its
own formatted balance as `nativePrice` (it always equals the entry's
`balance` field), and the Monad native entry carries the constant `"1.0000"`,
irrespective of whether the native USD price is known. -/
theorem native_price_amended
    (chainId : String) (nativeResult : Option (List Char)) (nativeUsdPrice : ℚ)
    (metaOf : String → Except Unit (Option AlchMeta)) (usdOf : String → JNum)
    (erc20Result : Option Erc20TB) (mor : List MoralisTok) (usdOf2 : String → JNum)
    (rawBalance : Option String) (monUsd : ℚ) :
    (∀ a ∈ (alchNonZero erc20Result).filterMap
        (alchErc20Entry chainId nativeUsdPrice metaOf usdOf),
      a.nativePrice = specNativePrice a.usdPrice nativeUsdPrice) ∧
    (∀ a ∈ mor.filterMap (moralisEntry monUsd usdOf2),
      a.nativePrice = specNativePrice a.usdPrice monUsd) ∧
    (∀ a ∈ alchNativeEntry chainId nativeResult nativeUsdPrice,
      a.nativePrice = a.balance) ∧
    (∀ a ∈ monadNativeEntry rawBalance monUsd, a.nativePrice = JNum.num 1) := by
  refine ⟨?_, ?_, ?_, ?_⟩
  · intro a ha
    rw [List.mem_filterMap] at ha
    obtain ⟨t, ht, he⟩ := ha
    cases hm : metaOf t.contractAddress with
    | error e =>
      simp only [alchErc20Entry, hm] at he
      exact Option.noConfusion he
    | ok o =>
      cases o with
      | none =>
        simp only [alchErc20Entry, hm] at he
        exact Option.noConfusion he
      | some md =>
        simp only [alchErc20Entry, hm] at he
        split at he
        · exact absurd he (by simp)
        · rw [Option.some.injEq] at he
          subst he
          by_cases hp : 0 < nativeUsdPrice <;>
            simp [specNativePrice, hp, jsToFixed_num_zero]
  · intro a ha
    rw [List.mem_filterMap] at ha
    obtain ⟨t, ht, he⟩ := ha
    simp only [moralisEntry] at he
    split at he
    · exact absurd he (by simp)
    · rw [Option.some.injEq] at he
      subst he
      by_cases hp : 0 < monUsd <;>
        simp [specNativePrice, hp, jsToFixed_num_zero]
  · intro a ha
    cases hr : nativeResult with
    | none => rw [hr] at ha; exact absurd ha (by simp [alchNativeEntry])
    | some hex =>
      simp only [alchNativeEntry, hr] at ha
      split at ha
      · exact absurd ha (by simp)
      · split at ha
        · rw [List.mem_singleton] at ha
          subst ha
          rfl
        · exact absurd ha (by simp)
  · intro a ha
    cases hr : rawBalance with
    | none => rw [hr] at ha; exact absurd ha (by simp [monadNativeEntry])
    | some s =>
      simp only [monadNativeEntry, hr] at ha
      split at ha
      · exact absurd ha (by simp)
      · split at ha
        · rw [List.mem_singleton] at ha
          subst ha
          rfl
        · exact absurd ha (by simp)

/-- Witness for C4 (amended): the Moralis-key Monad native entry for a 5 MON
wallet (price 3) has `nativePrice = "1.0000"`. -/
theorem native_price_amended_witness :
    MonadTok.nativePrice
      { id := "native-mon", name := "Monad", symbol := "MON", balance := JNum.num 5,
        usdPrice := JNum.num 3, nativePrice := JNum.num 1, totalValue := JNum.num 15,
        image := "https://assets.coingecko.com/coins/images/54540/small/monad.png",
        chain := "monad", isToken := true, address := none } = JNum.num 1 :=
  (native_price_amended "ethereum" none 2 (fun _ => Except.error ()) (fun _ => JNum.nan)
      none [] (fun _ => JNum.nan) (some "5000000000000000000") 3).2.2.2 _ (by
    have hp : parseInt10 "5000000000000000000" = JNum.num 5000000000000000000 := by decide
    have h1 : ¬("5000000000000000000" = "" ∨ "5000000000000000000" = "0") := by decide
    norm_num [monadNativeEntry, h1, hp, JNum.divPos, JNum.lt, JNum.mul, jsToFixed])

-- ### C3: dust filtering

/-- Counterexample for C3: an EVM wallet whose `eth_getBalance` result is
`0x2710` (10 000 wei = 1e-14 ETH).  The native entry's gate is only
`balance > 0`, so this dust-level holding is returned as a Fungible asset
with displayed balance `0.0000` — not strictly greater than the 0.000001
dust threshold the claim asserts for all returned Fungible assets. -/
theorem dust_threshold_counterexample :
    (fetchAlchemyTokens "ethereum" true (some "0x2710".data) none 3000
        (fun _ => Except.error ()) (fun _ => JNum.nan)).map
      (fun a => (a.isToken, a.balance)) = [(true, JNum.num 0)] ∧
    JNum.lt (JNum.num (1 / 1000000)) (JNum.num 0) = false := by
  refine ⟨?_, ?_⟩
  · have hp : parseHex16 "0x2710".data = JNum.num 10000 := by
      have h : parseHex16N "0x2710".data = some 10000 := by decide
      simp [parseHex16, h]
    have hne : ("0x2710".data : List Char) ≠ [] := by decide
    norm_num [fetchAlchemyTokens, alchNativeEntry, alchNonZero, alchNativeCfg, _nc, hp, hne,
      JNum.divPos, JNum.lt, JNum.mul, jsToFixed]
  · norm_num [JNum.lt]

/-- **C3** (corrected): only the ERC20 entries of the EVM adapter are
dust-filtered, and with `>= 0.000001` (the code drops `balance < 0.000001`),
not the claim's strict `>`; the EVM and Monad native entries are kept
whenever their balance is merely `> 0`, so near-zero native holdings (any
positive number of wei) are returned. -/
theorem dust_threshold_amended
    (chainId : String) (nativeResult : Option (List Char)) (nativeUsdPrice : ℚ)
    (metaOf : String → Except Unit (Option AlchMeta)) (usdOf : String → JNum)
    (erc20Result : Option Erc20TB) (rawBalance : Option String) (monUsd : ℚ) :
    (∀ a ∈ alchNativeEntry chainId nativeResult nativeUsdPrice,
      ∃ b : ℚ, 0 < b ∧ a.balance = jsToFixed 4 (JNum.num b)) ∧
    (∀ a ∈ (alchNonZero erc20Result).filterMap
        (alchErc20Entry chainId nativeUsdPrice metaOf usdOf),
      ∃ b : ℚ, 1 / 1000000 ≤ b ∧ a.balance = jsToFixed 4 (JNum.num b)) ∧
    (∀ a ∈ monadNativeEntry rawBalance monUsd,
      ∃ b : ℚ, 0 < b ∧ a.balance = jsToFixed 4 (JNum.num b)) := by
  refine ⟨?_, ?_, ?_⟩
  · intro a ha
    cases hr : nativeResult with
    | none => rw [hr] at ha; exact absurd ha (by simp [alchNativeEntry])
    | some hex =>
      simp only [alchNativeEntry, hr] at ha
      split at ha
      · exact absurd ha (by simp)
      · cases hph : parseHex16 hex with
        | nan => rw [hph] at ha; simp [JNum.divPos, JNum.lt] at ha
        | num m =>
          rw [hph] at ha
          simp only [JNum.divPos] at ha
          split at ha
          · rw [List.mem_singleton] at ha
            subst ha
            rename_i hlt
            refine ⟨m / 1000000000000000000, ?_, rfl⟩
            simpa [JNum.lt] using hlt
          · exact absurd ha (by simp)
  · intro a ha
    rw [List.mem_filterMap] at ha
    obtain ⟨t, ht, he⟩ := ha
    have ht1 : t ∈ (match erc20Result with
        | some r => r.tokenBalances.getD []
        | none => []).filter
          (fun tb : TokenBalance => JNum.lt (.num 0) (parseHex16 tb.tokenBalance)) := by
      simp only [alchNonZero] at ht
      exact List.mem_of_mem_take ht
    have htb := (List.mem_filter.mp ht1).2
    cases hm : metaOf t.contractAddress with
    | error e =>
      simp only [alchErc20Entry, hm] at he
      exact Option.noConfusion he
    | ok o =>
      cases o with
      | none =>
        simp only [alchErc20Entry, hm] at he
        exact Option.noConfusion he
      | some md =>
        cases hph : parseHex16 t.tokenBalance with
        | nan => rw [hph] at htb; simp [JNum.lt] at htb
        | num m =>
          have hm0 : 0 < m := by
            rw [hph] at htb
            simpa [JNum.lt] using htb
          simp only [alchErc20Entry, hm, hph, JNum.divPos] at he
          split at he
          · exact Option.noConfusion he
          · rw [Option.some.injEq] at he
            subst he
            rename_i hlt
            refine ⟨_, ?_, rfl⟩
            rw [JNum.lt] at hlt
            simpa using not_lt.mp (by simpa using hlt)
  · intro a ha
    cases hr : rawBalance with
    | none => rw [hr] at ha; exact absurd ha (by simp [monadNativeEntry])
    | some str =>
      simp only [monadNativeEntry, hr] at ha
      split at ha
      · exact absurd ha (by simp)
      · cases hph : parseInt10 str with
        | nan => rw [hph] at ha; simp [JNum.divPos, JNum.lt] at ha
        | num m =>
          rw [hph] at ha
          simp only [JNum.divPos] at ha
          split at ha
          · rw [List.mem_singleton] at ha
            subst ha
            rename_i hlt
            refine ⟨m / 1000000000000000000, ?_, rfl⟩
            simpa [JNum.lt] using hlt
          · exact absurd ha (by simp)

/-- Witness for C3 (amended): the Monad native entry for a 5 MON wallet has
a positive underlying balance. -/
theorem dust_threshold_amended_witness :
    ∃ b : ℚ, 0 < b ∧
      MonadTok.balance
        { id := "native-mon", name := "Monad", symbol := "MON", balance := JNum.num 5,
          usdPrice := JNum.num 3, nativePrice := JNum.num 1, totalValue := JNum.num 15,
          image := "https://assets.coingecko.com/coins/images/54540/small/monad.png",
          chain := "monad", isToken := true, address := none } = jsToFixed 4 (JNum.num b) :=
  (dust_threshold_amended "ethereum" none 2 (fun _ => Except.error ()) (fun _ => JNum.nan)
      none (some "5000000000000000000") 3).2.2 _ (by
    have hp : parseInt10 "5000000000000000000" = JNum.num 5000000000000000000 := by decide
    have h1 : ¬("5000000000000000000" = "" ∨ "5000000000000000000" = "0") := by decide
    norm_num [monadNativeEntry, h1, hp, JNum.divPos, JNum.lt, JNum.mul, jsToFixed])

-- ### C5: usdPrice is nonnegative

theorem dsSelectedPair_mem (chainId : String) (data : DsResp) (p : DsPair)
    (h : dsSelectedPair chainId data = some p) : p ∈ data.pairs.getD [] := by
  unfold dsSelectedPair at h
  cases hps : data.pairs with
  | none => rw [hps] at h; simp [jsOrOpt] at h
  | some l =>
    rw [hps] at h
    simp only [Option.some_bind] at h
    rcases hf : l.find? (fun p => p.chainId == dsChainOf chainId) with _ | p1
    · rw [hf] at h
      simp only [jsOrOpt] at h
      cases l with
      | nil => simp at h
      | cons x xs =>
        simp only [List.head?] at h
        rw [Option.some.injEq] at h
        subst h
        simp [hps]
    · rw [hf] at h
      simp only [jsOrOpt, Option.some.injEq] at h
      subst h
      have := List.mem_of_find?_eq_some hf
      simpa [hps]

/-- **C5** (corrected): `usdPrice` is never null, and it defaults to 0 when
no trading pair exists or the request fails; it is a number ≥ 0 whenever the
cache holds only nonnegative numbers and every returned pair carries a
numeric nonnegative `priceUsd` — both for the resolver itself and for every
asset of the EVM token adapter.  But it is NOT ≥ 0 for every response shape:
a selected pair whose `priceUsd` is absent or non-numeric makes
`parseFloat(pair.priceUsd)` NaN, which the resolver caches and returns (see
the counterexample). -/
theorem usd_price_nonneg_amended
    (up : Except Unit DsResp) (now : ℤ) (chainId address : String) (c : Cache)
    (chainId2 : String) (netOk : Bool) (nativeResult : Option (List Char))
    (erc20Result : Option Erc20TB) (nativeUsdPrice : ℚ)
    (metaOf : String → Except Unit (Option AlchMeta)) (usdOf : String → JNum) :
    ((∀ k e, List.lookup k c = some e → e.v.isNonneg = true) →
     (∀ data, up = .ok data → ∀ p ∈ data.pairs.getD [], ∃ q, p.priceUsd = some q ∧ 0 ≤ q) →
     (fetchUSDPrice up now chainId address c).v.isNonneg = true) ∧
    ((∀ s, (usdOf s).isNonneg = true) → 0 ≤ nativeUsdPrice →
     ∀ a ∈ fetchAlchemyTokens chainId2 netOk nativeResult erc20Result nativeUsdPrice
             metaOf usdOf,
       a.usdPrice.isNonneg = true) := by
  constructor
  · intro hcache hpairs
    by_cases hz : address = "" ∨ address = "0x0000000000000000000000000000000000000000"
    · simp [fetchUSDPrice, hz, JNum.isNonneg]
    · rcases hg : cGet c now ("ds-" ++ chainId ++ "-" ++ address) with _ | hit
      · simp only [fetchUSDPrice, if_neg hz, hg]
        cases up with
        | error e => norm_num [dsValue, JNum.isNonneg]
        | ok data =>
          simp only [dsValue]
          rcases hsel : dsSelectedPair chainId data with _ | p
          · norm_num [JNum.isNonneg]
          · obtain ⟨q, hq, hq0⟩ := hpairs data rfl p (dsSelectedPair_mem chainId data p hsel)
            simp [parseFloatOpt, hq, JNum.isNonneg, hq0]
      · simp only [fetchUSDPrice, if_neg hz, hg]
        have hx : ∃ e, List.lookup ("ds-" ++ chainId ++ "-" ++ address) c = some e
            ∧ hit = e.v := by
          cases hl : List.lookup ("ds-" ++ chainId ++ "-" ++ address) c with
          | none =>
            simp only [cGet, hl] at hg
            exact Option.noConfusion hg
          | some e0 =>
            simp only [cGet, hl] at hg
            split at hg
            · rw [Option.some.injEq] at hg
              exact ⟨e0, rfl, hg.symm⟩
            · exact Option.noConfusion hg
        obtain ⟨e, hl, hv⟩ := hx
        rw [hv]
        exact hcache _ _ hl
  · intro husd hnn a ha
    unfold fetchAlchemyTokens at ha
    split at ha
    · exact absurd ha (by simp)
    · rw [List.mem_append] at ha
      rcases ha with ha | ha
      · cases hr : nativeResult with
        | none => rw [hr] at ha; exact absurd ha (by simp [alchNativeEntry])
        | some hex =>
          simp only [alchNativeEntry, hr] at ha
          split at ha
          · exact absurd ha (by simp)
          · split at ha
            · rw [List.mem_singleton] at ha
              subst ha
              simpa [JNum.isNonneg] using hnn
            · exact absurd ha (by simp)
      · rw [List.mem_filterMap] at ha
        obtain ⟨t, ht, he⟩ := ha
        cases hm : metaOf t.contractAddress with
        | error e =>
          simp only [alchErc20Entry, hm] at he
          exact Option.noConfusion he
        | ok o =>
          cases o with
          | none =>
            simp only [alchErc20Entry, hm] at he
            exact Option.noConfusion he
          | some md =>
            simp only [alchErc20Entry, hm] at he
            split at he
            · exact Option.noConfusion he
            · rw [Option.some.injEq] at he
              subst he
              exact husd _

/-- Counterexample for C5: a DexScreener response whose (matching) pair has
no numeric `priceUsd`.  The resolver returns NaN — not a number ≥ 0 — and an
ERC20 asset built over it is returned with `usdPrice = NaN`, refuting
"usdPrice ≥ 0 for every possible provider response shape". -/
theorem usd_price_nan_counterexample :
    (fetchUSDPrice (.ok ⟨some [⟨"ethereum", none⟩]⟩) 0 "ethereum" "0xccc" []).v
      = JNum.nan ∧
    JNum.isNonneg JNum.nan = false ∧
    (fetchAlchemyTokens "ethereum" true none
        (some ⟨some [⟨"0xccc", "0xde0b6b3a7640000".data⟩]⟩) 3000
        (fun _ => Except.ok (some ⟨some 18, some "Tok", some "TOK", none⟩))
        (fun a => (fetchUSDPrice (.ok ⟨some [⟨"ethereum", none⟩]⟩) 0 "ethereum" a []).v)).map
      (fun a => (a.id, a.usdPrice)) = [("0xccc", JNum.nan)] := by
  refine ⟨by decide, rfl, ?_⟩
  have hp : parseHex16 "0xde0b6b3a7640000".data = JNum.num 1000000000000000000 := by
    have h : parseHex16N "0xde0b6b3a7640000".data = some 1000000000000000000 := by decide
    simp [parseHex16, h]
  have hds : (fetchUSDPrice (.ok ⟨some [⟨"ethereum", none⟩]⟩) 0 "ethereum" "0xccc" []).v
      = JNum.nan := by decide
  norm_num [fetchAlchemyTokens, alchNativeEntry, alchNonZero, alchErc20Entry, hp, hds,
    JNum.divPos, JNum.lt, JNum.mul, jsToFixed, jsOrStr,
    List.filterMap_cons, List.filterMap_nil, List.filter_cons, List.filter_nil,
    List.map_cons, List.map_nil, List.take]

/-- Witness for C5 (amended): with an empty cache and a well-formed pair
(`priceUsd = "3"`), the resolver's result is a nonnegative number. -/
theorem usd_price_nonneg_amended_witness :
    (fetchUSDPrice (.ok ⟨some [⟨"ethereum", some 3⟩]⟩) 0 "ethereum" "0xccc" []).v.isNonneg
      = true :=
  (usd_price_nonneg_amended (.ok ⟨some [⟨"ethereum", some 3⟩]⟩) 0 "ethereum" "0xccc" []
      "ethereum" true none none 0 (fun _ => Except.error ()) (fun _ => JNum.num 0)).1
    (fun k e h => by simp [List.lookup] at h)
    (by
      rintro data hd p hp
      rw [Except.ok.injEq] at hd
      subst hd
      simp only [Option.getD] at hp
      rw [List.mem_singleton] at hp
      subst hp
      exact ⟨3, rfl, by norm_num⟩)
